import Mathlib

/-!
Verification development for `sandbox.py`, a Docker-based sandbox
manager/runtime for AI coding agents.  The Python source is shallowly
embedded: pure string manipulation is translated to executable Lean
functions over `List Char`, the stateful `run` retry loop becomes a
fuel-indexed recursive function over an explicit `Limits` state, the
Docker daemon is an oracle parameter (`RunEnv.host`), and the
host-side side effects that the claims talk about (audit-file appends,
container-creation calls, the fallback trail) are returned as explicit
observation lists.  Exceptions are modelled with `Except`/`Option`.
-/

/-- Strip characters satisfying `p` from both ends of a string
(used for Python `str.strip()` and `str.strip("/")`). -/
def pyStripChars (p : Char → Bool) (s : String) : String :=
  ⟨((s.data.dropWhile p).reverse.dropWhile p).reverse⟩

/-- Python `str.strip()`: remove leading and trailing whitespace. -/
def pyStrip (s : String) : String := pyStripChars Char.isWhitespace s

/-- Python `str.strip("/")`: remove leading and trailing slashes. -/
def pyStripSlash (s : String) : String := pyStripChars (· == '/') s

/-- Python `str.lower()` (ASCII case folding suffices for the
controller-marker strings the code matches on). -/
def pyLower (s : String) : String := ⟨s.data.map Char.toLower⟩

/-- Helper for Python `str.split()` with no argument: accumulate the
current token (reversed) and split on whitespace runs, dropping
empty tokens. -/
def splitWsAux : List Char → List Char → List String
  | [], acc => if acc.isEmpty then [] else [⟨acc.reverse⟩]
  | c :: cs, acc =>
    if c.isWhitespace then
      if acc.isEmpty then splitWsAux cs [] else ⟨acc.reverse⟩ :: splitWsAux cs []
    else splitWsAux cs (c :: acc)

/-- Python `str.split()` with no argument. -/
def pySplit (s : String) : List String := splitWsAux s.data []

/-- Python `os.path.basename`: everything after the last `/`. -/
def pyBasename (s : String) : String :=
  ⟨(s.data.reverse.takeWhile (· != '/')).reverse⟩

/-- Does the second list occur at the head of the first list? -/
def segAt : List Char → List Char → Bool
  | [], _ => true
  | _ :: _, [] => false
  | a :: as, b :: bs => a == b && segAt as bs

/-- Does `needle` occur contiguously anywhere in the haystack?
(Python `needle in haystack` on strings.) -/
def hasSeg (needle : List Char) : List Char → Bool
  | [] => needle.isEmpty
  | l@(_ :: t) => segAt needle l || hasSeg needle t

/-- Python substring test `sub in s`. -/
def strHasSub (s sub : String) : Bool := hasSeg sub.data s.data

/-- Python `",".join(xs)`. -/
def joinComma : List String → String
  | [] => ""
  | [s] => s
  | s :: rest => s ++ "," ++ joinComma rest

/-!
Policy (`SandboxPolicy`, `DockerSandbox._check_policy`).
`re.search` is an external library call; it is passed in as an oracle
`rs : String → String → Bool` taking the pattern and the scanned string.
-/

/-- Embedding of the `SandboxPolicy` dataclass. -/
structure SandboxPolicy where
  allow : List String
  deny_patterns : List String
  env_allowlist : List String
  working_subdir : String
deriving DecidableEq

/-- The three ways `_check_policy` can raise `PolicyError`, tagged with
the data interpolated into the corresponding message. -/
inductive PolicyViolation where
  | emptyCommand
  | notAllowlisted (exe : String)
  | deniedPattern (pat : String)
deriving DecidableEq

/-- First deny pattern (in list order) that `rs` matches against `s`:
the `for pat in self.policy.deny_patterns` loop. -/
def findDeny (rs : String → String → Bool) : List String → String → Option String
  | [], _ => none
  | pat :: rest, s => if rs pat s then some pat else findDeny rs rest s

/-- Base executable of an already-stripped command:
`os.path.basename(stripped.split()[0])`. -/
def baseExe (stripped : String) : String :=
  pyBasename ((pySplit stripped).headD "")

/-- Base executable of a raw command string. -/
def exeOf (cmd : String) : String := baseExe (pyStrip cmd)

/-- Embedding of `DockerSandbox._check_policy`.  Returns `none` when the
command passes, `some v` when the Python code would raise `PolicyError`. -/
def checkPolicy (rs : String → String → Bool) (p : SandboxPolicy) (cmd : String) :
    Option PolicyViolation :=
  let stripped := pyStrip cmd
  if stripped = "" then some .emptyCommand
  else
    let exe := baseExe stripped
    if p.allow ≠ [] ∧ p.allow.contains exe = false then some (.notAllowlisted exe)
    else (findDeny rs p.deny_patterns stripped).map PolicyViolation.deniedPattern

/-!
DockerSandbox data model.  `cpus` in the source is a float used only as
`int(self.cpus * 1e9)`; the model stores that integer directly as
`nano_cpus`.  Fields that no modelled code path reads (`client`,
`log_dir`, `audit_path`) are left out; the audit file itself is modelled
as the list of appended records returned by `run`.
-/

/-- Embedding of the `DockerSandbox` constructor state. -/
structure DockerSandbox where
  image : String
  workspace : String
  policy : SandboxPolicy
  nano_cpus : Nat
  mem : String
  pids_limit : Nat
  network : Bool
deriving DecidableEq

/-- Embedding of `DockerSandbox._mount_dest`. -/
def DockerSandbox.mount_dest (sb : DockerSandbox) : String :=
  let sub := pyStrip sb.policy.working_subdir
  if sub = "" ∨ sub = "." ∨ sub = "./" then "/app"
  else "/app/" ++ pyStripSlash sub

/-- The docker-py volumes mapping built by `DockerSandbox.work_mount`. -/
structure BindMount where
  hostPath : String
  bind : String
  mode : String
deriving DecidableEq

/-- Embedding of `DockerSandbox.work_mount`. -/
def DockerSandbox.work_mount (sb : DockerSandbox) : BindMount :=
  { hostPath := sb.workspace, bind := sb.mount_dest, mode := "rw" }

/-- The `limits` dict threaded through one `run` call:
which resource controls are currently requested from the host. -/
structure Limits where
  cpu : Bool
  mem : Bool
  pids : Bool
deriving DecidableEq

/-- The keyword arguments `DockerSandbox._create_container` passes to
`client.containers.run` (the fields the claims are about; tmpfs,
detach and stream flags and the environment whitelist are fixed values
not inspected by any claim).  A `none` resource field means the
corresponding limit kwarg is omitted. -/
structure ContainerKwargs where
  image : String
  command : List String
  working_dir : String
  volumes : BindMount
  network_disabled : Bool
  user : String
  cap_drop : List String
  security_opt : List String
  read_only : Bool
  nano_cpus : Option Nat
  mem_limit : Option String
  pids_limit : Option Nat
deriving DecidableEq

/-- Embedding of the kwargs assembly in `DockerSandbox._create_container`,
including the three `if limits.get(...)` guards. -/
def DockerSandbox.create_kwargs (sb : DockerSandbox) (cmd : String) (l : Limits) :
    ContainerKwargs :=
  { image := sb.image
    command := ["bash", "-lc", cmd]
    working_dir := sb.mount_dest
    volumes := sb.work_mount
    network_disabled := !sb.network
    user := "1000:1000"
    cap_drop := ["ALL"]
    security_opt := ["no-new-privileges"]
    read_only := true
    nano_cpus := if l.cpu then some sb.nano_cpus else none
    mem_limit := if l.mem ∧ sb.mem ≠ "" then some sb.mem else none
    pids_limit := if l.pids ∧ sb.pids_limit ≠ 0 then some sb.pids_limit else none }

/-!
Limit-fallback classification: the `except APIError` branch of
`DockerSandbox.run`.
-/

/-- The pids-controller markers scanned for in the lowered explanation. -/
def pidsGapB (e : String) : Bool :=
  strHasSub e "pids.max" || (strHasSub e "pids" && strHasSub e "no such file")
    || strHasSub e "pids limit"

/-- The memory-controller markers scanned for in the lowered explanation. -/
def memGapB (e : String) : Bool :=
  strHasSub e "memory.max" || (strHasSub e "memory" && strHasSub e "no such file")
    || strHasSub e "memory cgroup"

/-- The cpu-controller markers scanned for in the lowered explanation. -/
def cpuGapB (e : String) : Bool :=
  strHasSub e "cpu.max" || strHasSub e "cfs_quota"
    || (strHasSub e "cpu" && strHasSub e "no such file")

/-- Embedding of the if/elif chain in the `except APIError` handler of `run`:
given the daemon explanation, the current limits and the fallback list,
return the updated limits, updated fallbacks, and the `changed` flag. -/
def applyFallback (explanation : String) (l : Limits) (fb : List String) :
    Limits × List String × Bool :=
  let e := pyLower explanation
  if pidsGapB e && l.pids then ({ l with pids := false }, fb ++ ["pids"], true)
  else if memGapB e && l.mem then ({ l with mem := false }, fb ++ ["memory"], true)
  else if cpuGapB e && l.cpu then ({ l with cpu := false }, fb ++ ["cpu"], true)
  else (l, fb, false)

/-- Number of limits currently disabled. -/
def numOff (l : Limits) : Nat :=
  (if l.cpu then 0 else 1) + (if l.mem then 0 else 1) + (if l.pids then 0 else 1)

/-!
Execution results and audit events.
-/

/-- The result dict returned by `DockerSandbox.run`: `ok` is always
present; the remaining keys are present or absent depending on the
terminal path taken. -/
structure RunResult where
  ok : Bool
  code : Option Int
  stdout : Option String
  stderr : Option String
  error : Option String
deriving DecidableEq

/-- A `{"ok": False, "error": e}` result. -/
def failureResult (e : String) : RunResult :=
  { ok := false, code := none, stdout := none, stderr := none, error := some e }

/-- The `event` dict assembled at the top of `run` (and mutated by the
fallback loop via its `limits_fallback` key). -/
structure EventBase where
  id : String
  cmd : String
  timeout : Nat
  image : String
  mount_dest : String
  limits_fallback : Option String
deriving DecidableEq

/-- One line of the JSONL audit file: `{**event, **result, "ts": ...}`. -/
structure AuditEvent where
  id : String
  cmd : String
  timeout : Nat
  image : String
  mount_dest : String
  limits_fallback : Option String
  ok : Bool
  code : Option Int
  stdout : Option String
  stderr : Option String
  error : Option String
  ts : Nat
deriving DecidableEq

/-- Embedding of `self._audit({**event, **result})` for one record. -/
def mkAudit (ev : EventBase) (r : RunResult) (ts : Nat) : AuditEvent :=
  { id := ev.id, cmd := ev.cmd, timeout := ev.timeout, image := ev.image,
    mount_dest := ev.mount_dest, limits_fallback := ev.limits_fallback,
    ok := r.ok, code := r.code, stdout := r.stdout, stderr := r.stderr,
    error := r.error, ts := ts }

/-!
The host oracle.  One creation attempt either yields a container whose
`wait` completes or errors, raises `docker.errors.APIError` with an
explanation string, or raises some other exception (modelled by its
`repr` string).  Log collection is modelled as data carried by the
outcome; the unconditional `container.remove(force=True)` cleanup does
not affect any value the claims mention and is not tracked.
-/

/-- Outcome of `container.wait(timeout=timeout)` plus the later log reads. -/
inductive WaitOutcome where
  | completed (statusCode : Int) (stdoutLog stderrLog : String)
  | waitError (msg stdoutLog stderrLog : String)
deriving DecidableEq

/-- Outcome of one `self._create_container(cmd, limits)` call. -/
inductive CreateOutcome where
  | created (w : WaitOutcome)
  | apiError (explanation : String)
  | raised (exnRepr : String)
deriving DecidableEq

/-- Ambient inputs to one `run` call that the Python code obtains from
the outside world: the regex engine, the Docker daemon (indexed by the
command, the attempt number and the currently requested limits),
`uuid.uuid4()` and `time.time()`. -/
structure RunEnv where
  reSearch : String → String → Bool
  host : String → Nat → Limits → CreateOutcome
  runId : String
  ts : Nat

/-- Terminal state of the `for _ in range(4)` loop.  Every constructor
carries the creation attempts made (the limits passed to each
`_create_container` call) and the fallback list at exit; `done` carries
the audit records already written inside the loop, the other two leave
auditing to the code after/around the loop. -/
inductive LoopOut where
  | done (r : RunResult) (audits : List AuditEvent) (creates : List Limits)
      (trail : List String)
  | exhausted (ev : EventBase) (creates : List Limits) (trail : List String)
  | raised (exn : String) (ev : EventBase) (creates : List Limits)
      (trail : List String)
deriving DecidableEq

/-- Embedding of the body of the `for _ in range(4)` loop in `run`, with the
remaining iteration count as fuel and the attempt index feeding the
host oracle. -/
def runLoop (host : Nat → Limits → CreateOutcome) (ts : Nat) :
    Nat → Nat → Limits → List String → EventBase → List Limits → LoopOut
  | 0, _, _, fb, ev, creates => .exhausted ev creates fb
  | fuel + 1, idx, l, fb, ev, creates =>
    let creates' := creates ++ [l]
    match host idx l with
    | .created (.completed code out err) =>
      let r : RunResult :=
        { ok := code == 0, code := some code, stdout := some out,
          stderr := some err, error := none }
      .done r [mkAudit ev r ts] creates' fb
    | .created (.waitError msg _outLog errLog) =>
      let emsg := pyStrip (("wait_error: " ++ msg) ++ "\n" ++ errLog)
      let r := failureResult emsg
      .done r [mkAudit ev r ts] creates' fb
    | .apiError exp =>
      match applyFallback exp l fb with
      | (l', fb', true) =>
        runLoop host ts fuel (idx + 1) l' fb'
          { ev with limits_fallback := some (joinComma fb') } creates'
      | (_, _, false) =>
        let r := failureResult ("docker.APIError: " ++ exp)
        .done r [mkAudit ev r ts] creates' fb
    | .raised exn => .raised exn ev creates' fb

/-- The `result` built by the post-loop "Exhausted retries" branch. -/
def exhaustedResult : RunResult :=
  failureResult "Unable to create container after limit fallbacks"

deriving instance DecidableEq for Except

/-- Everything observable about one `run` call: the value returned to
the caller (`Except.error` = a raised `PolicyError`), the audit records
appended, the container-creation attempts made, the final fallback
trail, and whether the post-loop "Exhausted retries" branch executed. -/
structure RunOut where
  result : Except PolicyViolation RunResult
  audits : List AuditEvent
  creates : List Limits
  trail : List String
  exhausted : Bool
deriving DecidableEq

/-- Embedding of `DockerSandbox.run`.  `_check_policy` runs before the
`try`, so a `PolicyError` propagates to the caller; every path inside
the `try` is converted to a returned result dict. -/
def DockerSandbox.run (sb : DockerSandbox) (env : RunEnv) (cmd : String)
    (timeout : Nat) : RunOut :=
  match checkPolicy env.reSearch sb.policy cmd with
  | some v =>
    { result := .error v, audits := [], creates := [], trail := [],
      exhausted := false }
  | none =>
    let ev : EventBase :=
      { id := env.runId, cmd := cmd, timeout := timeout, image := sb.image,
        mount_dest := sb.mount_dest, limits_fallback := none }
    match runLoop (env.host cmd) env.ts 4 0 ⟨true, true, true⟩ [] ev [] with
    | .done r audits creates trail =>
      { result := .ok r, audits := audits, creates := creates, trail := trail,
        exhausted := false }
    | .exhausted ev' creates trail =>
      { result := .ok exhaustedResult,
        audits := [mkAudit ev' exhaustedResult env.ts],
        creates := creates, trail := trail, exhausted := true }
    | .raised exn ev' creates trail =>
      let r := failureResult exn
      { result := .ok r, audits := [mkAudit ev' r env.ts],
        creates := creates, trail := trail, exhausted := false }

/-- Return value of `DockerSandbox.run_sequence`. -/
inductive SeqResult where
  | allOk
  | failed (failing_cmd : String) (result : RunResult)
deriving DecidableEq

/-- Embedding of `DockerSandbox.run_sequence`, instrumented with the
list of commands actually handed to `run` (in order).  A `PolicyError`
raised by `run` propagates out of the loop. -/
def DockerSandbox.run_sequence (sb : DockerSandbox) (env : RunEnv) (timeout : Nat) :
    List String → Except PolicyViolation SeqResult × List String
  | [] => (.ok .allOk, [])
  | c :: rest =>
    match (sb.run env c timeout).result with
    | .error v => (.error v, [c])
    | .ok r =>
      if r.ok then
        let (res, tr) := sb.run_sequence env timeout rest
        (res, c :: tr)
      else (.ok (.failed c r), [c])

/-!
Transaction (host-side workspace snapshot / rollback).  The workspace
directory is modelled by its top-level listing: named entries whose
payload is a file or a directory tree.  `tar.add(workspace,
arcname="workspace")` archives exactly that listing;
`__exit__` rollback wipes every entry `os.listdir` reports and then
copies every entry of the extracted snapshot back (`copytree` for
directories, `copy2` for files — both reproduce the archived entry).
-/

/-- A file-system entry payload. -/
inductive FsTree where
  | file (content : String)
  | dir (entries : List (String × FsTree))

/-- Top-level listing of the workspace directory. -/
abbrev Listing := List (String × FsTree)

/-- The wipe loop of `__exit__`: for each name in the captured listing,
remove that entry from the workspace (`shutil.rmtree` / `os.remove`). -/
def wipeNames : List String → Listing → Listing
  | [], ws => ws
  | n :: ns, ws => wipeNames ns (ws.filter (fun e => e.1 ≠ n))

/-- Wipe the current workspace contents: iterate over
`os.listdir(self.sandbox.workspace)` removing each entry. -/
def wipeAll (ws : Listing) : Listing := wipeNames (ws.map Prod.fst) ws

/-- The restore loop of `__exit__`: copy each entry of the extracted
snapshot into the workspace in `os.listdir(src)` order. -/
def restoreAll (src : Listing) (ws : Listing) : Listing :=
  src.foldl (fun acc e => acc ++ [e]) ws

/-- Observable outcome of a completed `with Transaction(...)` block:
the workspace listing afterwards, whether the snapshot file still
exists, and the exception (if any) that escaped to the caller. -/
structure TxOut where
  workspace : Listing
  snapLive : Bool
  propagated : Option String

/-- Embedding of `Transaction.__exit__`: given the snapshot taken at
entry, the workspace as the wrapped work left it, and whether the work
raised.  Returns the workspace afterwards, whether the snapshot file
survives, and the suppress flag (the return value of `__exit__`). -/
def txExit (snap : Listing) (wsNow : Listing) (excRaised : Bool) :
    Listing × Bool × Bool :=
  if excRaised then
    let restored := restoreAll snap (wipeAll wsNow)
    (restored, false, true)
  else
    (wsNow, false, false)

/-- Embedding of `with Transaction(sandbox): work`.  The wrapped work
maps the workspace at entry to the workspace it leaves behind plus an
optional raised exception (its message). -/
def withTransaction (ws0 : Listing) (work : Listing → Listing × Option String) :
    TxOut :=
  let snap := ws0
  let (ws1, exc) := work ws0
  match exc with
  | none =>
    let (wsF, live, _) := txExit snap ws1 false
    { workspace := wsF, snapLive := live, propagated := none }
  | some e =>
    let (wsF, live, suppress) := txExit snap ws1 true
    { workspace := wsF, snapLive := live,
      propagated := if suppress then none else some e }

/-!
Concrete fixtures used by witnesses and counterexamples.
-/

/-- Literal-substring regex oracle: correct for the metacharacter-free
patterns used in the concrete tests below. -/
def subMatcher (pat s : String) : Bool := strHasSub s pat

/-- A policy with a non-empty allowlist and one deny pattern. -/
def polBasic : SandboxPolicy :=
  { allow := ["python", "bash"], deny_patterns := ["forbidden"],
    env_allowlist := ["PYTHONUNBUFFERED"], working_subdir := "" }

/-- A sandbox over `polBasic`. -/
def sbBasic : DockerSandbox :=
  { image := "python:3.11-slim", workspace := "/home/user/proj",
    policy := polBasic, nano_cpus := 1000000000, mem := "512m",
    pids_limit := 128, network := false }

/-- A host on which every creation succeeds and the command exits 0. -/
def hostOk : String → Nat → Limits → CreateOutcome :=
  fun _ _ _ => .created (.completed 0 "out" "")

/-- A host lacking the pids controller: creation fails with a
"pids.max"-style APIError while pids limiting is requested, succeeds
once it is dropped. -/
def hostNoPids : String → Nat → Limits → CreateOutcome :=
  fun _ _ l =>
    if l.pids then
      .apiError "OCI runtime create failed: open /sys/fs/cgroup/pids.max: no such file or directory"
    else .created (.completed 0 "ok" "")

/-- A host whose creation error is not a recognized capability gap. -/
def hostBadImage : String → Nat → Limits → CreateOutcome :=
  fun _ _ _ => .apiError "404 Client Error: no such image"

/-- A host whose `wait` times out. -/
def hostWaitTimeout : String → Nat → Limits → CreateOutcome :=
  fun _ _ _ => .created (.waitError "Read timed out." "truncated out" "last stderr")

/-- A host where the attempt raises a non-APIError exception. -/
def hostRaises : String → Nat → Limits → CreateOutcome :=
  fun _ _ _ => .raised "ConnectionError: daemon gone"

/-- A host that exits nonzero for a marked command and 0 otherwise. -/
def hostCmdB : String → Nat → Limits → CreateOutcome :=
  fun cmd _ _ =>
    if cmd = "python b.py" then .created (.completed 2 "" "boom")
    else .created (.completed 0 "fine" "")

/-- Environment fixture around a given host. -/
def envWith (host : String → Nat → Limits → CreateOutcome) : RunEnv :=
  { reSearch := subMatcher, host := host,
    runId := "f3a1", ts := 1760000000 }

/-!
Derived observers and invariants used by the statements below.
-/

/-- The `limits_fallback` value the event carries for a given fallback
list: absent until the first fallback, then the comma-joined list. -/
def trailOpt (fb : List String) : Option String :=
  if fb = [] then none else some (joinComma fb)

/-- Creation attempts recorded by a terminal loop state. -/
def LoopOut.createsOf : LoopOut → List Limits
  | .done _ _ c _ => c
  | .exhausted _ c _ => c
  | .raised _ _ c _ => c

/-- Fallback trail recorded by a terminal loop state. -/
def LoopOut.trailOf : LoopOut → List String
  | .done _ _ _ t => t
  | .exhausted _ _ t => t
  | .raised _ _ _ t => t

/-- Whether the loop state is the post-loop "Exhausted retries" case. -/
def LoopOut.isExhaust : LoopOut → Bool
  | .exhausted _ _ _ => true
  | _ => false

/-- Relation between the limit flags and the fallback list that one
`run` call maintains: each disabled limit is named exactly once, only
the three limit names occur, and the list length counts the disabled
limits. -/
def fbConsistent (l : Limits) (fb : List String) : Prop :=
  fb.Nodup ∧ (∀ n ∈ fb, n = "pids" ∨ n = "memory" ∨ n = "cpu") ∧
  ("pids" ∈ fb ↔ l.pids = false) ∧ ("memory" ∈ fb ↔ l.mem = false) ∧
  ("cpu" ∈ fb ↔ l.cpu = false) ∧ fb.length = numOff l

/-- Did `run` on this command return a result dict with `ok = True`?
(`False` also when `run` raised a `PolicyError`.) -/
def runOkB (sb : DockerSandbox) (env : RunEnv) (timeout : Nat) (cmd : String) :
    Bool :=
  match (sb.run env cmd timeout).result with
  | .ok r => r.ok
  | .error _ => false

/-- Modelled from the words of the claim about mount resolution: `/app`
when `working_subdir` is empty, whitespace-only, `"."` or `"./"`, and
otherwise `/app/` followed by `working_subdir` with leading and
trailing slashes removed. -/
def claimMountDest (p : SandboxPolicy) : String :=
  if p.working_subdir = "" ∨ pyStrip p.working_subdir = "" ∨
      p.working_subdir = "." ∨ p.working_subdir = "./" then "/app"
  else "/app/" ++ pyStripSlash p.working_subdir

/-- Amended mount resolution, in the spec's words: strip whitespace
first; `/app` for the bare markers, otherwise `/app/` plus the
whitespace-stripped subdir with leading and trailing slashes removed. -/
def specMountDest (p : SandboxPolicy) : String :=
  let s := pyStrip p.working_subdir
  if s = "" ∨ s = "." ∨ s = "./" then "/app"
  else "/app/" ++ pyStripSlash s

/-- Policy whose `working_subdir` has inner leading whitespace,
separating the code's mount normalization from the claim's words. -/
def polSubWs : SandboxPolicy :=
  { allow := [], deny_patterns := [], env_allowlist := [],
    working_subdir := " sub" }

/-- Sandbox over `polSubWs`. -/
def sbSubWs : DockerSandbox :=
  { image := "python:3.11-slim", workspace := "/home/user/proj",
    policy := polSubWs, nano_cpus := 1000000000, mem := "512m",
    pids_limit := 128, network := false }

/-!
Lemmas about the fallback classifier.
-/

/-- The if/elif chain leaves the state alone and reports no change, or
flips exactly one currently-on limit off and appends exactly its name. -/
lemma applyFallback_cases (exp : String) (l : Limits) (fb : List String) :
    applyFallback exp l fb = (l, fb, false) ∨
    (l.pids = true ∧
      applyFallback exp l fb = ({ l with pids := false }, fb ++ ["pids"], true)) ∨
    (l.mem = true ∧
      applyFallback exp l fb = ({ l with mem := false }, fb ++ ["memory"], true)) ∨
    (l.cpu = true ∧
      applyFallback exp l fb = ({ l with cpu := false }, fb ++ ["cpu"], true)) := by
  unfold applyFallback
  dsimp only
  split_ifs with h1 h2 h3
  · exact Or.inr (Or.inl ⟨(Bool.and_eq_true _ _ ▸ h1).2, rfl⟩)
  · exact Or.inr (Or.inr (Or.inl ⟨(Bool.and_eq_true _ _ ▸ h2).2, rfl⟩))
  · exact Or.inr (Or.inr (Or.inr ⟨(Bool.and_eq_true _ _ ▸ h3).2, rfl⟩))
  · exact Or.inl rfl

/-- Disabling a currently-on pids limit adds one to the disabled count. -/
lemma numOff_pids (l : Limits) (h : l.pids = true) :
    numOff { l with pids := false } = numOff l + 1 := by
  rcases l with ⟨c, m, p⟩
  simp only at h
  subst h
  simp [numOff]

/-- Disabling a currently-on memory limit adds one to the disabled count. -/
lemma numOff_mem (l : Limits) (h : l.mem = true) :
    numOff { l with mem := false } = numOff l + 1 := by
  rcases l with ⟨c, m, p⟩
  simp only at h
  subst h
  simp [numOff, Nat.add_assoc, Nat.add_comm, Nat.add_left_comm]

/-- Disabling a currently-on cpu limit adds one to the disabled count. -/
lemma numOff_cpu (l : Limits) (h : l.cpu = true) :
    numOff { l with cpu := false } = numOff l + 1 := by
  rcases l with ⟨c, m, p⟩
  simp only at h
  subst h
  simp [numOff, Nat.add_assoc, Nat.add_comm, Nat.add_left_comm]

/-- At most three limits can be disabled. -/
lemma numOff_le_three (l : Limits) : numOff l ≤ 3 := by
  rcases l with ⟨c, m, p⟩
  cases c <;> cases m <;> cases p <;> decide

/-- Appending `"pids"` after turning the pids limit off preserves the
trail invariant. -/
lemma fbConsistent_push_pids (l : Limits) (fb : List String)
    (hc : fbConsistent l fb) (hx : l.pids = true) :
    fbConsistent { l with pids := false } (fb ++ ["pids"]) := by
  obtain ⟨hnd, hnames, hp, hm, hcpu, hlen⟩ := hc
  have hne1 : ("memory" : String) ≠ "pids" := by decide
  have hne2 : ("cpu" : String) ≠ "pids" := by decide
  have hnotin : "pids" ∉ fb := by
    intro hin
    rw [hp.mp hin] at hx
    exact Bool.noConfusion hx
  refine ⟨?_, ?_, ?_, ?_, ?_, ?_⟩
  · exact hnd.append (List.nodup_singleton _) (by simpa using hnotin)
  · intro n hn
    rcases List.mem_append.mp hn with h' | h'
    · exact hnames n h'
    · simp at h'
      subst h'
      exact Or.inl rfl
  · simp
  · simp [List.mem_append, hm, hne1]
  · simp [List.mem_append, hcpu, hne2]
  · simp [numOff_pids l hx, hlen]

/-- Appending `"memory"` after turning the memory limit off preserves
the trail invariant. -/
lemma fbConsistent_push_mem (l : Limits) (fb : List String)
    (hc : fbConsistent l fb) (hx : l.mem = true) :
    fbConsistent { l with mem := false } (fb ++ ["memory"]) := by
  obtain ⟨hnd, hnames, hp, hm, hcpu, hlen⟩ := hc
  have hne1 : ("pids" : String) ≠ "memory" := by decide
  have hne2 : ("cpu" : String) ≠ "memory" := by decide
  have hnotin : "memory" ∉ fb := by
    intro hin
    rw [hm.mp hin] at hx
    exact Bool.noConfusion hx
  refine ⟨?_, ?_, ?_, ?_, ?_, ?_⟩
  · exact hnd.append (List.nodup_singleton _) (by simpa using hnotin)
  · intro n hn
    rcases List.mem_append.mp hn with h' | h'
    · exact hnames n h'
    · simp at h'
      subst h'
      exact Or.inr (Or.inl rfl)
  · simp [List.mem_append, hp, hne1]
  · simp
  · simp [List.mem_append, hcpu, hne2]
  · simp [numOff_mem l hx, hlen]

/-- Appending `"cpu"` after turning the cpu limit off preserves the
trail invariant. -/
lemma fbConsistent_push_cpu (l : Limits) (fb : List String)
    (hc : fbConsistent l fb) (hx : l.cpu = true) :
    fbConsistent { l with cpu := false } (fb ++ ["cpu"]) := by
  obtain ⟨hnd, hnames, hp, hm, hcpu, hlen⟩ := hc
  have hne1 : ("pids" : String) ≠ "cpu" := by decide
  have hne2 : ("memory" : String) ≠ "cpu" := by decide
  have hnotin : "cpu" ∉ fb := by
    intro hin
    rw [hcpu.mp hin] at hx
    exact Bool.noConfusion hx
  refine ⟨?_, ?_, ?_, ?_, ?_, ?_⟩
  · exact hnd.append (List.nodup_singleton _) (by simpa using hnotin)
  · intro n hn
    rcases List.mem_append.mp hn with h' | h'
    · exact hnames n h'
    · simp at h'
      subst h'
      exact Or.inr (Or.inr rfl)
  · simp [List.mem_append, hp, hne1]
  · simp [List.mem_append, hm, hne2]
  · simp
  · simp [numOff_cpu l hx, hlen]

/-- One pass through the `except APIError` handler preserves the trail
invariant. -/
lemma applyFallback_preserves (exp : String) (l : Limits) (fb : List String)
    (hc : fbConsistent l fb) :
    fbConsistent (applyFallback exp l fb).1 (applyFallback exp l fb).2.1 := by
  rcases applyFallback_cases exp l fb with h | ⟨hx, h⟩ | ⟨hx, h⟩ | ⟨hx, h⟩ <;>
    rw [h]
  · exact hc
  · exact fbConsistent_push_pids l fb hc hx
  · exact fbConsistent_push_mem l fb hc hx
  · exact fbConsistent_push_cpu l fb hc hx

/-- A change reported by the handler flips exactly one limit off and
appends exactly one name. -/
lemma applyFallback_changed (exp : String) (l : Limits) (fb : List String)
    (h : (applyFallback exp l fb).2.2 = true) :
    numOff (applyFallback exp l fb).1 = numOff l + 1 ∧
    ∃ n, (applyFallback exp l fb).2.1 = fb ++ [n] ∧
      (n = "pids" ∨ n = "memory" ∨ n = "cpu") := by
  rcases applyFallback_cases exp l fb with h0 | ⟨hx, h0⟩ | ⟨hx, h0⟩ | ⟨hx, h0⟩ <;>
    rw [h0] at h ⊢
  · cases h
  · exact ⟨numOff_pids l hx, "pids", rfl, Or.inl rfl⟩
  · exact ⟨numOff_mem l hx, "memory", rfl, Or.inr (Or.inl rfl)⟩
  · exact ⟨numOff_cpu l hx, "cpu", rfl, Or.inr (Or.inr rfl)⟩

/-!
Lemmas about the creation-retry loop.
-/

/-- Overwriting `limits_fallback` with its current value is a no-op. -/
lemma eventWithSelf (ev : EventBase) (x : Option String)
    (h : ev.limits_fallback = x) : { ev with limits_fallback := x } = ev := by
  rcases ev with ⟨a, b, c, d, e, f⟩
  simp only at h
  rw [h]

/-- Consecutive overwrites of `limits_fallback` collapse. -/
lemma eventWithWith (ev : EventBase) (x y : Option String) :
    ({ { ev with limits_fallback := x } with limits_fallback := y } : EventBase) =
      { ev with limits_fallback := y } := by
  rcases ev with ⟨a, b, c, d, e, f⟩
  rfl

/-- Each loop iteration makes at most one creation attempt. -/
lemma runLoop_creates_le (host : Nat → Limits → CreateOutcome) (ts : Nat) :
    ∀ fuel idx l fb ev creates,
      ((runLoop host ts fuel idx l fb ev creates).createsOf).length ≤
        creates.length + fuel := by
  intro fuel
  induction fuel with
  | zero =>
    intro idx l fb ev creates
    simp [runLoop, LoopOut.createsOf]
  | succ fuel ih =>
    intro idx l fb ev creates
    cases hh : host idx l with
    | created w =>
      cases w with
      | completed code out err =>
        simp [runLoop, hh, LoopOut.createsOf]
      | waitError m o e =>
        simp [runLoop, hh, LoopOut.createsOf]
    | apiError exp =>
      rcases hA : applyFallback exp l fb with ⟨l', fb', ch⟩
      cases ch with
      | true =>
        have h2 := ih (idx + 1) l' fb'
          { ev with limits_fallback := some (joinComma fb') } (creates ++ [l])
        simp only [runLoop, hh, hA]
        simp only [List.length_append, List.length_singleton] at h2
        omega
      | false =>
        simp [runLoop, hh, hA, LoopOut.createsOf]
    | raised exn =>
      simp [runLoop, hh, LoopOut.createsOf]

/-- Every creation attempt beyond the first is paid for by a new trail
entry: attempts made ≤ new trail entries + 1. -/
lemma runLoop_creates_trail (host : Nat → Limits → CreateOutcome) (ts : Nat) :
    ∀ fuel idx l fb ev creates,
      ((runLoop host ts fuel idx l fb ev creates).createsOf).length + fb.length ≤
        creates.length + ((runLoop host ts fuel idx l fb ev creates).trailOf).length
          + 1 := by
  intro fuel
  induction fuel with
  | zero =>
    intro idx l fb ev creates
    simp [runLoop, LoopOut.createsOf, LoopOut.trailOf]
  | succ fuel ih =>
    intro idx l fb ev creates
    cases hh : host idx l with
    | created w =>
      cases w with
      | completed code out err =>
        simp [runLoop, hh, LoopOut.createsOf, LoopOut.trailOf]
        omega
      | waitError m o e =>
        simp [runLoop, hh, LoopOut.createsOf, LoopOut.trailOf]
        omega
    | apiError exp =>
      rcases hA : applyFallback exp l fb with ⟨l', fb', ch⟩
      cases ch with
      | true =>
        have hch := applyFallback_changed exp l fb (by rw [hA])
        rw [hA] at hch
        dsimp only at hch
        obtain ⟨-, n, hfb', -⟩ := hch
        have hlen : fb'.length = fb.length + 1 := by
          rw [hfb']
          simp
        have h2 := ih (idx + 1) l' fb'
          { ev with limits_fallback := some (joinComma fb') } (creates ++ [l])
        simp only [runLoop, hh, hA]
        simp only [List.length_append, List.length_singleton] at h2
        omega
      | false =>
        simp [runLoop, hh, hA, LoopOut.createsOf, LoopOut.trailOf]
        omega
    | raised exn =>
      simp [runLoop, hh, LoopOut.createsOf, LoopOut.trailOf]
      omega

/-- With more fuel than limits left to disable, the loop cannot run all
iterations to exhaustion: some attempt returns or raises first. -/
lemma runLoop_no_exhaust (host : Nat → Limits → CreateOutcome) (ts : Nat) :
    ∀ fuel idx l fb ev creates, 3 < numOff l + fuel →
      (runLoop host ts fuel idx l fb ev creates).isExhaust = false := by
  intro fuel
  induction fuel with
  | zero =>
    intro idx l fb ev creates h
    exact ((by have := numOff_le_three l; omega : False)).elim
  | succ fuel ih =>
    intro idx l fb ev creates h
    cases hh : host idx l with
    | created w =>
      cases w with
      | completed code out err => simp [runLoop, hh, LoopOut.isExhaust]
      | waitError m o e => simp [runLoop, hh, LoopOut.isExhaust]
    | apiError exp =>
      rcases hA : applyFallback exp l fb with ⟨l', fb', ch⟩
      cases ch with
      | true =>
        have hch := applyFallback_changed exp l fb (by rw [hA])
        rw [hA] at hch
        dsimp only at hch
        have hnum := hch.1
        simp only [runLoop, hh, hA]
        exact ih (idx + 1) l' fb' _ (creates ++ [l]) (by omega)
      | false => simp [runLoop, hh, hA, LoopOut.isExhaust]
    | raised exn => simp [runLoop, hh, LoopOut.isExhaust]

/-- The trail invariant survives the whole loop: at any terminal state
the trail is the fallback list of some reachable limit state. -/
lemma runLoop_trail_inv (host : Nat → Limits → CreateOutcome) (ts : Nat) :
    ∀ fuel idx l fb ev creates, fbConsistent l fb →
      ∃ l'', fbConsistent l'' ((runLoop host ts fuel idx l fb ev creates).trailOf) := by
  intro fuel
  induction fuel with
  | zero =>
    intro idx l fb ev creates hc
    exact ⟨l, by simpa [runLoop, LoopOut.trailOf] using hc⟩
  | succ fuel ih =>
    intro idx l fb ev creates hc
    cases hh : host idx l with
    | created w =>
      cases w with
      | completed code out err =>
        exact ⟨l, by simpa [runLoop, hh, LoopOut.trailOf] using hc⟩
      | waitError m o e =>
        exact ⟨l, by simpa [runLoop, hh, LoopOut.trailOf] using hc⟩
    | apiError exp =>
      rcases hA : applyFallback exp l fb with ⟨l', fb', ch⟩
      cases ch with
      | true =>
        have hp := applyFallback_preserves exp l fb hc
        rw [hA] at hp
        dsimp only at hp
        simp only [runLoop, hh, hA]
        exact ih (idx + 1) l' fb' _ (creates ++ [l]) hp
      | false =>
        exact ⟨l, by simpa [runLoop, hh, hA, LoopOut.trailOf] using hc⟩
    | raised exn =>
      exact ⟨l, by simpa [runLoop, hh, LoopOut.trailOf] using hc⟩

/-- Audit shape through the loop: provided the event's
`limits_fallback` mirrors the fallback list, a `done` exit carries
exactly one audit record, built from the entry event updated with the
final trail, and the other exits return that updated event for the
caller to audit. -/
lemma runLoop_audits (host : Nat → Limits → CreateOutcome) (ts : Nat) :
    ∀ fuel idx l fb creates (ev0 : EventBase),
      ev0.limits_fallback = trailOpt fb →
      (∀ r audits creates' trail,
        runLoop host ts fuel idx l fb ev0 creates = .done r audits creates' trail →
        audits = [mkAudit { ev0 with limits_fallback := trailOpt trail } r ts]) ∧
      (∀ ev creates' trail,
        runLoop host ts fuel idx l fb ev0 creates = .exhausted ev creates' trail →
        ev = { ev0 with limits_fallback := trailOpt trail }) ∧
      (∀ exn ev creates' trail,
        runLoop host ts fuel idx l fb ev0 creates = .raised exn ev creates' trail →
        ev = { ev0 with limits_fallback := trailOpt trail }) := by
  intro fuel
  induction fuel with
  | zero =>
    intro idx l fb creates ev0 h0
    refine ⟨?_, ?_, ?_⟩
    · intro r audits creates' trail heq
      cases heq
    · intro ev creates' trail heq
      rw [runLoop] at heq
      cases heq
      rw [eventWithSelf ev0 (trailOpt fb) h0]
    · intro exn ev creates' trail heq
      cases heq
  | succ fuel ih =>
    intro idx l fb creates ev0 h0
    cases hh : host idx l with
    | created w =>
      cases w with
      | completed code out err =>
        refine ⟨?_, ?_, ?_⟩
        · intro r audits creates' trail heq
          simp only [runLoop, hh] at heq
          cases heq
          rw [eventWithSelf ev0 (trailOpt fb) h0]
        · intro ev creates' trail heq
          simp only [runLoop, hh] at heq
          cases heq
        · intro exn ev creates' trail heq
          simp only [runLoop, hh] at heq
          cases heq
      | waitError m o e =>
        refine ⟨?_, ?_, ?_⟩
        · intro r audits creates' trail heq
          simp only [runLoop, hh] at heq
          cases heq
          rw [eventWithSelf ev0 (trailOpt fb) h0]
        · intro ev creates' trail heq
          simp only [runLoop, hh] at heq
          cases heq
        · intro exn ev creates' trail heq
          simp only [runLoop, hh] at heq
          cases heq
    | apiError exp =>
      rcases hA : applyFallback exp l fb with ⟨l', fb', ch⟩
      cases ch with
      | true =>
        have hch := applyFallback_changed exp l fb (by rw [hA])
        rw [hA] at hch
        dsimp only at hch
        obtain ⟨-, n, hfb', -⟩ := hch
        have hne : fb' ≠ [] := by
          rw [hfb']
          simp
        have h0' : ({ ev0 with limits_fallback := some (joinComma fb') } :
            EventBase).limits_fallback = trailOpt fb' := by
          simp [trailOpt, hne]
        have ih' := ih (idx + 1) l' fb' (creates ++ [l])
          { ev0 with limits_fallback := some (joinComma fb') } h0'
        refine ⟨?_, ?_, ?_⟩
        · intro r audits creates' trail heq
          simp only [runLoop, hh, hA] at heq
          have := ih'.1 r audits creates' trail heq
          rwa [eventWithWith] at this
        · intro ev creates' trail heq
          simp only [runLoop, hh, hA] at heq
          have := ih'.2.1 ev creates' trail heq
          rwa [eventWithWith] at this
        · intro exn ev creates' trail heq
          simp only [runLoop, hh, hA] at heq
          have := ih'.2.2 exn ev creates' trail heq
          rwa [eventWithWith] at this
      | false =>
        refine ⟨?_, ?_, ?_⟩
        · intro r audits creates' trail heq
          simp only [runLoop, hh, hA] at heq
          cases heq
          rw [eventWithSelf ev0 (trailOpt fb) h0]
        · intro ev creates' trail heq
          simp only [runLoop, hh, hA] at heq
          cases heq
        · intro exn ev creates' trail heq
          simp only [runLoop, hh, hA] at heq
          cases heq
    | raised exn0 =>
      refine ⟨?_, ?_, ?_⟩
      · intro r audits creates' trail heq
        simp only [runLoop, hh] at heq
        cases heq
      · intro ev creates' trail heq
        simp only [runLoop, hh] at heq
        cases heq
      · intro exn ev creates' trail heq
        simp only [runLoop, hh] at heq
        cases heq
        rw [eventWithSelf ev0 (trailOpt fb) h0]

/-- Every result a `done` exit returns with `ok = False` carries an
`error` or a `code` field. -/
lemma runLoop_failure_fields (host : Nat → Limits → CreateOutcome) (ts : Nat) :
    ∀ fuel idx l fb ev creates r audits creates' trail,
      runLoop host ts fuel idx l fb ev creates = .done r audits creates' trail →
      r.ok = false → r.code.isSome = true ∨ r.error.isSome = true := by
  intro fuel
  induction fuel with
  | zero =>
    intro idx l fb ev creates r audits creates' trail heq
    cases heq
  | succ fuel ih =>
    intro idx l fb ev creates r audits creates' trail heq hok
    cases hh : host idx l with
    | created w =>
      cases w with
      | completed code out err =>
        simp only [runLoop, hh] at heq
        cases heq
        exact Or.inl rfl
      | waitError m o e =>
        simp only [runLoop, hh] at heq
        cases heq
        exact Or.inr rfl
    | apiError exp =>
      rcases hA : applyFallback exp l fb with ⟨l', fb', ch⟩
      cases ch with
      | true =>
        simp only [runLoop, hh, hA] at heq
        exact ih _ _ _ _ _ _ _ _ _ heq hok
      | false =>
        simp only [runLoop, hh, hA] at heq
        cases heq
        exact Or.inr rfl
    | raised exn =>
      simp only [runLoop, hh] at heq
      cases heq

/-!
Lemmas about the rollback loops.
-/

/-- Anything surviving the wipe loop was already present and is named
by none of the wiped names. -/
lemma mem_wipeNames (ns : List String) (ws : Listing) (e : String × FsTree)
    (h : e ∈ wipeNames ns ws) : e ∈ ws ∧ ∀ n ∈ ns, e.1 ≠ n := by
  induction ns generalizing ws with
  | nil => exact ⟨h, by simp⟩
  | cons n ns ih =>
    simp only [wipeNames] at h
    obtain ⟨he, hn⟩ := ih _ h
    rw [List.mem_filter] at he
    refine ⟨he.1, ?_⟩
    intro m hm
    rcases List.mem_cons.mp hm with rfl | hm'
    · simpa using he.2
    · exact hn m hm'

/-- Wiping every listed entry empties the workspace. -/
lemma wipeAll_eq_nil (ws : Listing) : wipeAll ws = [] := by
  rw [List.eq_nil_iff_forall_not_mem]
  intro e he
  obtain ⟨hmem, hall⟩ := mem_wipeNames _ _ _ he
  exact hall e.1 (List.mem_map_of_mem Prod.fst hmem) rfl

/-- Copying the snapshot entries back appends them in order. -/
lemma restoreAll_eq (src ws : Listing) : restoreAll src ws = ws ++ src := by
  induction src generalizing ws with
  | nil => simp [restoreAll]
  | cons e src ih =>
    show List.foldl _ ws (e :: src) = ws ++ e :: src
    rw [List.foldl_cons]
    simpa [restoreAll, List.append_assoc] using ih (ws ++ [e])

/-- If some pattern in the list matches, the deny loop stops at the
first matching pattern. -/
lemma findDeny_some_of_mem (rs : String → String → Bool) (pats : List String)
    (s pat : String) (hpat : pat ∈ pats) (hm : rs pat s = true) :
    ∃ q pre post, pats = pre ++ q :: post ∧ (∀ x ∈ pre, rs x s = false) ∧
      rs q s = true ∧ findDeny rs pats s = some q := by
  induction pats with
  | nil => cases hpat
  | cons a rest ih =>
    by_cases ha : rs a s = true
    · exact ⟨a, [], rest, rfl, by simp, ha, by simp [findDeny, ha]⟩
    · have ha' : rs a s = false := by
        cases h : rs a s
        · rfl
        · exact absurd h ha
      have hpat' : pat ∈ rest := by
        rcases List.mem_cons.mp hpat with rfl | h
        · exact absurd hm ha
        · exact h
      obtain ⟨q, pre, post, hsplit, hpre, hq, hfind⟩ := ih hpat'
      refine ⟨q, a :: pre, post, by rw [hsplit]; rfl, ?_, hq, ?_⟩
      · intro x hx
        rcases List.mem_cons.mp hx with rfl | hx'
        · exact ha'
        · exact hpre x hx'
      · simp [findDeny, ha', hfind]

/-- C1: a transaction deletes its snapshot in both exits; on normal exit
the work's workspace stands and nothing propagates; on error exit the
workspace is restored exactly to its entry state (entries created by
the attempt are wiped, entries present at entry are copied back) and
the error is suppressed, so the caller sees no exception. -/
theorem transaction_rollback_or_commit (ws0 : Listing)
    (work : Listing → Listing × Option String) :
    (withTransaction ws0 work).snapLive = false ∧
    ((work ws0).2 = none →
      withTransaction ws0 work =
        { workspace := (work ws0).1, snapLive := false, propagated := none }) ∧
    (∀ e, (work ws0).2 = some e →
      withTransaction ws0 work =
        { workspace := ws0, snapLive := false, propagated := none }) := by
  rcases hw : work ws0 with ⟨ws1, exc⟩
  cases exc with
  | none => simp [withTransaction, txExit, hw]
  | some e => simp [withTransaction, txExit, hw, restoreAll_eq, wipeAll_eq_nil]

/-- Witness for C1 at a concrete workspace: work that writes `x.txt`
and then raises leaves the workspace exactly as at entry, with the
snapshot gone and no exception reaching the caller. -/
theorem transaction_rollback_witness :
    withTransaction [("a.txt", FsTree.file "A")]
        (fun ws => (ws ++ [("x.txt", FsTree.file "X")], some "verify failed")) =
      { workspace := [("a.txt", FsTree.file "A")], snapLive := false,
        propagated := none } :=
  (transaction_rollback_or_commit _ _).2.2 "verify failed" rfl

/-- C3 (amended): any command matching a deny pattern is rejected by
the policy check whether or not its base executable is allowlisted;
when the allowlist check passes (empty allow set or allowed
executable) and the command is not whitespace-only, the rejection is a
denied-pattern violation naming the first matching pattern. -/
theorem checkPolicy_deny_rejects (rs : String → String → Bool)
    (p : SandboxPolicy) (cmd pat : String)
    (hpat : pat ∈ p.deny_patterns) (hm : rs pat (pyStrip cmd) = true) :
    checkPolicy rs p cmd ≠ none ∧
    (pyStrip cmd ≠ "" →
      (p.allow = [] ∨ p.allow.contains (exeOf cmd) = true) →
      ∃ q pre post, p.deny_patterns = pre ++ q :: post ∧
        (∀ x ∈ pre, rs x (pyStrip cmd) = false) ∧ rs q (pyStrip cmd) = true ∧
        checkPolicy rs p cmd = some (.deniedPattern q)) := by
  obtain ⟨q, pre, post, hsplit, hpre, hq, hfind⟩ :=
    findDeny_some_of_mem rs p.deny_patterns (pyStrip cmd) pat hpat hm
  constructor
  · unfold checkPolicy
    dsimp only
    split_ifs with h1 h2
    · simp
    · simp
    · simp [hfind]
  · intro hne hallow
    refine ⟨q, pre, post, hsplit, hpre, hq, ?_⟩
    have hcond : ¬(p.allow ≠ [] ∧ p.allow.contains (baseExe (pyStrip cmd)) = false) := by
      rcases hallow with h | h
      · intro hc
        exact hc.1 h
      · intro hc
        rw [show exeOf cmd = baseExe (pyStrip cmd) from rfl] at h
        rw [hc.2] at h
        cases h
    unfold checkPolicy
    dsimp only
    rw [if_neg hne, if_neg hcond, hfind]
    rfl

/-- Counterexample to C3 as stated: `"evil forbidden stuff"` matches
the deny pattern `"forbidden"`, yet the rejection reports
`NotAllowlisted` (the allowlist check fires first), not the matching
deny pattern. -/
theorem checkPolicy_deny_counterexample :
    "forbidden" ∈ polBasic.deny_patterns ∧
    subMatcher "forbidden" (pyStrip "evil forbidden stuff") = true ∧
    checkPolicy subMatcher polBasic "evil forbidden stuff" =
      some (.notAllowlisted "evil") ∧
    checkPolicy subMatcher polBasic "evil forbidden stuff" ≠
      some (.deniedPattern "forbidden") :=
  ⟨by decide, rfl, rfl, by decide⟩

/-- Witness for C3 (amended) at a concrete policy: a denied command
whose executable is allowlisted is rejected with the first matching
deny pattern. -/
theorem checkPolicy_deny_rejects_witness :
    checkPolicy subMatcher polBasic "python forbidden" ≠ none ∧
    ∃ q pre post, polBasic.deny_patterns = pre ++ q :: post ∧
      (∀ x ∈ pre, subMatcher x (pyStrip "python forbidden") = false) ∧
      subMatcher q (pyStrip "python forbidden") = true ∧
      checkPolicy subMatcher polBasic "python forbidden" =
        some (.deniedPattern q) := by
  have h := checkPolicy_deny_rejects subMatcher polBasic "python forbidden"
    "forbidden" (by decide) (by decide)
  exact ⟨h.1, h.2 (by decide) (Or.inr (by decide))⟩

/-- C4: with a non-empty allow set, a command whose base executable
(first whitespace token, path stripped) is not allowed is rejected as
not allowlisted and `run` raises before any container creation or
audit write; with an empty allow set the allowlist check is skipped and
only the empty-command and deny-pattern checks decide the outcome. -/
theorem allowlist_gate (sb : DockerSandbox) (env : RunEnv) (cmd : String)
    (t : Nat) :
    (sb.policy.allow ≠ [] → pyStrip cmd ≠ "" →
      sb.policy.allow.contains (exeOf cmd) = false →
      checkPolicy env.reSearch sb.policy cmd =
        some (.notAllowlisted (exeOf cmd)) ∧
      sb.run env cmd t =
        { result := .error (.notAllowlisted (exeOf cmd)), audits := [],
          creates := [], trail := [], exhausted := false }) ∧
    (sb.policy.allow = [] →
      checkPolicy env.reSearch sb.policy cmd =
        (if pyStrip cmd = "" then some .emptyCommand
         else (findDeny env.reSearch sb.policy.deny_patterns
            (pyStrip cmd)).map PolicyViolation.deniedPattern)) := by
  constructor
  · intro hne hstr hcont
    have hcp : checkPolicy env.reSearch sb.policy cmd =
        some (.notAllowlisted (exeOf cmd)) := by
      unfold checkPolicy
      dsimp only
      rw [if_neg hstr, if_pos ⟨hne, hcont⟩]
      rfl
    exact ⟨hcp, by simp [DockerSandbox.run, hcp]⟩
  · intro hA
    unfold checkPolicy
    dsimp only
    split_ifs with h1 h2
    · rfl
    · exact absurd hA h2.1
    · rfl

/-- Witness for C4 at a concrete sandbox: `gcc` is not in the
allowlist, so the policy raises and no container is created. -/
theorem allowlist_gate_witness :
    checkPolicy (envWith hostOk).reSearch sbBasic.policy "gcc x.c" =
      some (.notAllowlisted "gcc") ∧
    sbBasic.run (envWith hostOk) "gcc x.c" 10 =
      { result := .error (.notAllowlisted "gcc"), audits := [], creates := [],
        trail := [], exhausted := false } := by
  have h := (allowlist_gate sbBasic (envWith hostOk) "gcc x.c" 10).1
    (by decide) (by decide) (by decide)
  exact h

/-- C5 (amended): a policy violation is raised to the caller of `run` as a
`PolicyError` exception — before any audit record or container — while
every post-policy outcome is returned as a structured result dict. -/
theorem policy_violation_raises (sb : DockerSandbox) (env : RunEnv)
    (cmd : String) (t : Nat) :
    (∀ v, checkPolicy env.reSearch sb.policy cmd = some v →
      sb.run env cmd t =
        { result := .error v, audits := [], creates := [], trail := [],
          exhausted := false }) ∧
    (checkPolicy env.reSearch sb.policy cmd = none →
      ∃ r, (sb.run env cmd t).result = .ok r) := by
  constructor
  · intro v hv
    simp [DockerSandbox.run, hv]
  · intro hn
    rcases hL : runLoop (env.host cmd) env.ts 4 0 ⟨true, true, true⟩ []
        { id := env.runId, cmd := cmd, timeout := t, image := sb.image,
          mount_dest := sb.mount_dest, limits_fallback := none } [] with
      ⟨r, audits, creates, trail⟩ | ⟨ev', creates, trail⟩ |
      ⟨exn, ev', creates, trail⟩
    · exact ⟨r, by simp [DockerSandbox.run, hn, hL]⟩
    · exact ⟨exhaustedResult, by simp [DockerSandbox.run, hn, hL]⟩
    · exact ⟨failureResult exn, by simp [DockerSandbox.run, hn, hL]⟩

/-- Counterexample to C5 as stated: an empty command is not returned to
the caller as a structured result — `run` propagates the
`PolicyError` (modelled as `Except.error`), with no audit record and no
container creation. -/
theorem policy_violation_raises_counterexample :
    sbBasic.run (envWith hostOk) "" 10 =
      { result := .error .emptyCommand, audits := [], creates := [],
        trail := [], exhausted := false } := rfl

/-- Witness for C5 (amended): a denied command raises; an allowed
command returns a structured result. -/
theorem policy_violation_raises_witness :
    sbBasic.run (envWith hostOk) "python forbidden" 10 =
      { result := .error (.deniedPattern "forbidden"), audits := [],
        creates := [], trail := [], exhausted := false } ∧
    ∃ r, (sbBasic.run (envWith hostOk) "python x.py" 10).result = .ok r :=
  ⟨(policy_violation_raises sbBasic (envWith hostOk) "python forbidden" 10).1
      (.deniedPattern "forbidden") rfl,
    (policy_violation_raises sbBasic (envWith hostOk) "python x.py" 10).2 rfl⟩

/-- C10: `run` propagates an exception exactly when the policy check
fails; every post-policy failure is returned as a structured result
with `ok = False` carrying a `code` or an `error` field. -/
theorem run_raises_only_policy (sb : DockerSandbox) (env : RunEnv)
    (cmd : String) (t : Nat) :
    ((∃ v, (sb.run env cmd t).result = .error v) ↔
      checkPolicy env.reSearch sb.policy cmd ≠ none) ∧
    (∀ r, (sb.run env cmd t).result = .ok r → r.ok = false →
      r.code.isSome = true ∨ r.error.isSome = true) := by
  rcases hP : checkPolicy env.reSearch sb.policy cmd with _ | v
  · rcases hL : runLoop (env.host cmd) env.ts 4 0 ⟨true, true, true⟩ []
        { id := env.runId, cmd := cmd, timeout := t, image := sb.image,
          mount_dest := sb.mount_dest, limits_fallback := none } [] with
      ⟨r0, audits, creates, trail⟩ | ⟨ev', creates, trail⟩ |
      ⟨exn, ev', creates, trail⟩
    · refine ⟨by simp [DockerSandbox.run, hP, hL], ?_⟩
      intro r hr hok
      have hr0 : r0 = r := by
        simp [DockerSandbox.run, hP, hL] at hr
        exact hr
      subst hr0
      exact runLoop_failure_fields (env.host cmd) env.ts 4 0 ⟨true, true, true⟩
        [] _ [] r0 audits creates trail hL hok
    · refine ⟨by simp [DockerSandbox.run, hP, hL], ?_⟩
      intro r hr hok
      have hr0 : exhaustedResult = r := by
        simp [DockerSandbox.run, hP, hL] at hr
        exact hr
      subst hr0
      exact Or.inr rfl
    · refine ⟨by simp [DockerSandbox.run, hP, hL], ?_⟩
      intro r hr hok
      have hr0 : failureResult exn = r := by
        simp [DockerSandbox.run, hP, hL] at hr
        exact hr
      subst hr0
      exact Or.inr rfl
  · refine ⟨by simp [DockerSandbox.run, hP], ?_⟩
    intro r hr
    simp [DockerSandbox.run, hP] at hr

/-- Witness for C10: an unrecognized creation error is returned, not
raised, and its failure result carries an error field. -/
theorem run_raises_only_policy_witness :
    ((sbBasic.run (envWith hostBadImage) "python x.py" 10).result =
      .ok (failureResult "docker.APIError: 404 Client Error: no such image")) ∧
    ((failureResult "docker.APIError: 404 Client Error: no such image").code.isSome =
        true ∨
      (failureResult "docker.APIError: 404 Client Error: no such image").error.isSome =
        true) :=
  ⟨rfl,
    (run_raises_only_policy sbBasic (envWith hostBadImage) "python x.py" 10).2
      (failureResult "docker.APIError: 404 Client Error: no such image") rfl rfl⟩

/-- C6: a `run` call that passes the policy check appends exactly one
audit record, on every terminal path; the record carries the command,
timeout, image, mount target, timestamp, the result's outcome fields
and — exactly when some limit was disabled — the comma-joined fallback
trail; a policy rejection appends no record. -/
theorem run_audits_once (sb : DockerSandbox) (env : RunEnv) (cmd : String)
    (t : Nat) :
    (checkPolicy env.reSearch sb.policy cmd = none →
      ∃ r, (sb.run env cmd t).result = .ok r ∧
        (sb.run env cmd t).audits =
          [{ id := env.runId, cmd := cmd, timeout := t, image := sb.image,
             mount_dest := sb.mount_dest,
             limits_fallback := trailOpt (sb.run env cmd t).trail,
             ok := r.ok, code := r.code, stdout := r.stdout,
             stderr := r.stderr, error := r.error, ts := env.ts }]) ∧
    (∀ v, checkPolicy env.reSearch sb.policy cmd = some v →
      (sb.run env cmd t).audits = []) := by
  constructor
  · intro hn
    have hAud := runLoop_audits (env.host cmd) env.ts 4 0 ⟨true, true, true⟩ [] []
      { id := env.runId, cmd := cmd, timeout := t, image := sb.image,
        mount_dest := sb.mount_dest, limits_fallback := none }
      (by simp [trailOpt])
    rcases hL : runLoop (env.host cmd) env.ts 4 0 ⟨true, true, true⟩ []
        { id := env.runId, cmd := cmd, timeout := t, image := sb.image,
          mount_dest := sb.mount_dest, limits_fallback := none } [] with
      ⟨r, audits, creates, trail⟩ | ⟨ev', creates, trail⟩ |
      ⟨exn, ev', creates, trail⟩
    · have ha := hAud.1 r audits creates trail hL
      refine ⟨r, by simp [DockerSandbox.run, hn, hL], ?_⟩
      simp [DockerSandbox.run, hn, hL, ha, mkAudit]
    · have ha := hAud.2.1 ev' creates trail hL
      refine ⟨exhaustedResult, by simp [DockerSandbox.run, hn, hL], ?_⟩
      simp [DockerSandbox.run, hn, hL, ha, mkAudit]
    · have ha := hAud.2.2 exn ev' creates trail hL
      refine ⟨failureResult exn, by simp [DockerSandbox.run, hn, hL], ?_⟩
      simp [DockerSandbox.run, hn, hL, ha, mkAudit]
  · intro v hv
    simp [DockerSandbox.run, hv]

/-- Witness for C6 on a pids-deficient host: the single audit record of
the call, including the `limits_fallback` trail. -/
theorem run_audits_once_witness :
    (sbBasic.run (envWith hostNoPids) "python x.py" 10).audits =
      [{ id := "f3a1", cmd := "python x.py", timeout := 10,
         image := "python:3.11-slim", mount_dest := "/app",
         limits_fallback := some "pids", ok := true, code := some 0,
         stdout := some "ok", stderr := some "", error := none,
         ts := 1760000000 }] := by
  obtain ⟨r, hres, haud⟩ :=
    (run_audits_once sbBasic (envWith hostNoPids) "python x.py" 10).1 rfl
  have hres2 : (sbBasic.run (envWith hostNoPids) "python x.py" 10).result = Except.ok { ok := true, code := some 0, stdout := some "ok", stderr := some "", error := none } := rfl
  rw [hres2] at hres
  have hr := Except.ok.inj hres
  rw [haud, ← hr]
  rfl

/-- C7: `run_sequence` executes the commands in list order, stops at
the first whose result is not ok — later commands are never handed to
`run` — and returns that command with its result; when every command
is ok it returns ok having executed them all. -/
theorem run_sequence_first_failure (sb : DockerSandbox) (env : RunEnv)
    (t : Nat) :
    (∀ pre c post r,
      (∀ d ∈ pre, runOkB sb env t d = true) →
      (sb.run env c t).result = .ok r → r.ok = false →
      sb.run_sequence env t (pre ++ c :: post) =
        (.ok (.failed c r), pre ++ [c])) ∧
    (∀ cmds, (∀ d ∈ cmds, runOkB sb env t d = true) →
      sb.run_sequence env t cmds = (.ok .allOk, cmds)) := by
  constructor
  · intro pre
    induction pre with
    | nil =>
      intro c post r hpre hc hok
      simp [DockerSandbox.run_sequence, hc, hok]
    | cons d pre ih =>
      intro c post r hpre hc hok
      have hd := hpre d (List.mem_cons_self d pre)
      unfold runOkB at hd
      rcases hres : (sb.run env d t).result with v | rd
      · rw [hres] at hd
        simp at hd
      · rw [hres] at hd
        simp at hd
        have ihh := ih c post r (fun x hx => hpre x (List.mem_cons_of_mem d hx))
          hc hok
        simp [DockerSandbox.run_sequence, hres, hd, ihh]
  · intro cmds
    induction cmds with
    | nil =>
      intro hall
      simp [DockerSandbox.run_sequence]
    | cons d rest ih =>
      intro hall
      have hd := hall d (List.mem_cons_self d rest)
      unfold runOkB at hd
      rcases hres : (sb.run env d t).result with v | rd
      · rw [hres] at hd
        simp at hd
      · rw [hres] at hd
        simp at hd
        have ihh := ih (fun x hx => hall x (List.mem_cons_of_mem d hx))
        simp [DockerSandbox.run_sequence, hres, hd, ihh]

/-- Witness for C7: on a host where `python b.py` exits 2, the sequence
stops after b, never runs c, and reports b with its result. -/
theorem run_sequence_first_failure_witness :
    sbBasic.run_sequence (envWith hostCmdB) 10
        ["python a.py", "python b.py", "python c.py"] =
      (.ok (.failed "python b.py"
        { ok := false, code := some 2, stdout := some "",
          stderr := some "boom", error := none }),
        ["python a.py", "python b.py"]) := by
  have h := (run_sequence_first_failure sbBasic (envWith hostCmdB) 10).1
    ["python a.py"] "python b.py" ["python c.py"]
    { ok := false, code := some 2, stdout := some "", stderr := some "boom",
      error := none }
    (by decide) rfl rfl
  exact h

/-- C2 (amended): during one `run`, a creation failure whose host text
is a recognized missing-controller marker for a currently-on limit
(checked pids, then memory, then cpu) turns that limit off, appends its
name to the fallback trail and retries creation; an unrecognized
creation error returns a structured failure immediately; at most 4
creation attempts are made; and the post-loop exhaustion branch returns
`Failure{error: "Unable to create container after limit fallbacks"}`. -/
theorem limit_fallback_retry (sb : DockerSandbox) (env : RunEnv)
    (cmd : String) (t : Nat) :
    (sb.run env cmd t).creates.length ≤ 4 ∧
    (∀ fuel idx l fb ev creates exp l' fb',
      env.host cmd idx l = .apiError exp →
      (applyFallback exp l fb = (l', fb', true) →
        runLoop (env.host cmd) env.ts (fuel + 1) idx l fb ev creates =
          runLoop (env.host cmd) env.ts fuel (idx + 1) l' fb'
            { ev with limits_fallback := some (joinComma fb') }
            (creates ++ [l])) ∧
      (applyFallback exp l fb = (l', fb', false) →
        runLoop (env.host cmd) env.ts (fuel + 1) idx l fb ev creates =
          .done (failureResult ("docker.APIError: " ++ exp))
            [mkAudit ev (failureResult ("docker.APIError: " ++ exp)) env.ts]
            (creates ++ [l]) fb)) ∧
    (∀ exp l fb, pidsGapB (pyLower exp) = true → l.pids = true →
      applyFallback exp l fb = ({ l with pids := false }, fb ++ ["pids"], true)) ∧
    (∀ exp l fb, (pidsGapB (pyLower exp) && l.pids) = false →
      memGapB (pyLower exp) = true → l.mem = true →
      applyFallback exp l fb =
        ({ l with mem := false }, fb ++ ["memory"], true)) ∧
    (∀ exp l fb, (pidsGapB (pyLower exp) && l.pids) = false →
      (memGapB (pyLower exp) && l.mem) = false →
      cpuGapB (pyLower exp) = true → l.cpu = true →
      applyFallback exp l fb = ({ l with cpu := false }, fb ++ ["cpu"], true)) ∧
    ((sb.run env cmd t).exhausted = true →
      (sb.run env cmd t).result = .ok exhaustedResult ∧
      exhaustedResult.error =
        some "Unable to create container after limit fallbacks") := by
  refine ⟨?_, ?_, ?_, ?_, ?_, ?_⟩
  · rcases hP : checkPolicy env.reSearch sb.policy cmd with _ | v
    · have h := runLoop_creates_le (env.host cmd) env.ts 4 0 ⟨true, true, true⟩ []
        { id := env.runId, cmd := cmd, timeout := t, image := sb.image,
          mount_dest := sb.mount_dest, limits_fallback := none } []
      rcases hL : runLoop (env.host cmd) env.ts 4 0 ⟨true, true, true⟩ []
          { id := env.runId, cmd := cmd, timeout := t, image := sb.image,
            mount_dest := sb.mount_dest, limits_fallback := none } [] with
        ⟨r, audits, creates, trail⟩ | ⟨ev', creates, trail⟩ |
        ⟨exn, ev', creates, trail⟩ <;>
        rw [hL] at h <;> simp [LoopOut.createsOf] at h <;>
        simp [DockerSandbox.run, hP, hL, h]
    · simp [DockerSandbox.run, hP]
  · intro fuel idx l fb ev creates exp l' fb' hh
    constructor
    · intro hA
      simp only [runLoop, hh, hA]
    · intro hA
      simp only [runLoop, hh, hA]
  · intro exp l fb h1 h2
    simp [applyFallback, h1, h2]
  · intro exp l fb h0 h1 h2
    simp [applyFallback, h0, h1, h2]
  · intro exp l fb h0 h1 h2 h3
    simp [applyFallback, h0, h1, h2, h3]
  · rcases hP : checkPolicy env.reSearch sb.policy cmd with _ | v
    · rcases hL : runLoop (env.host cmd) env.ts 4 0 ⟨true, true, true⟩ []
          { id := env.runId, cmd := cmd, timeout := t, image := sb.image,
            mount_dest := sb.mount_dest, limits_fallback := none } [] with
        ⟨r, audits, creates, trail⟩ | ⟨ev', creates, trail⟩ |
        ⟨exn, ev', creates, trail⟩
      · intro hx
        simp [DockerSandbox.run, hP, hL] at hx
      · intro hx
        exact ⟨by simp [DockerSandbox.run, hP, hL], rfl⟩
      · intro hx
        simp [DockerSandbox.run, hP, hL] at hx
    · intro hx
      simp [DockerSandbox.run, hP] at hx

/-- Counterexample to C2 as stated: the exhaustion branch's error text
is `"Unable to create container after limit fallbacks"`, not the
claimed `"exhausted limit fallbacks"`. -/
theorem exhausted_message_counterexample :
    exhaustedResult.error =
      some "Unable to create container after limit fallbacks" ∧
    exhaustedResult.error ≠ some "exhausted limit fallbacks" :=
  ⟨rfl, by decide⟩

/-- Witness for C2 (amended) on a pids-deficient host: at most 4
creation attempts; the first attempt's `pids.max` APIError retries with
pids off and `"pids"` appended; the marker classification fires. -/
theorem limit_fallback_retry_witness :
    (sbBasic.run (envWith hostNoPids) "python x.py" 10).creates.length ≤ 4 ∧
    runLoop ((envWith hostNoPids).host "python x.py") (envWith hostNoPids).ts 4 0 ⟨true, true, true⟩ [] ⟨"f3a1", "python x.py", 10, "python:3.11-slim", "/app", none⟩ [] =
      runLoop ((envWith hostNoPids).host "python x.py") (envWith hostNoPids).ts 3 1 ⟨true, true, false⟩ ["pids"] ⟨"f3a1", "python x.py", 10, "python:3.11-slim", "/app", some (joinComma ["pids"])⟩ [⟨true, true, true⟩] ∧
    applyFallback "open /sys/fs/cgroup/pids.max: no such file" ⟨true, true, true⟩ [] = (⟨true, true, false⟩, ["pids"], true) := by
  refine ⟨(limit_fallback_retry sbBasic (envWith hostNoPids) "python x.py" 10).1,
    ?_, ?_⟩
  · exact ((limit_fallback_retry sbBasic (envWith hostNoPids) "python x.py" 10).2.1
      3 0 ⟨true, true, true⟩ [] ⟨"f3a1", "python x.py", 10, "python:3.11-slim", "/app", none⟩ [] _ ⟨true, true, false⟩ ["pids"] rfl).1 rfl
  · exact (limit_fallback_retry sbBasic (envWith hostNoPids) "python x.py" 10).2.2.1
      "open /sys/fs/cgroup/pids.max: no such file" ⟨true, true, true⟩ [] rfl rfl

/-- C9: at most one limit is disabled per creation attempt (checked
pids, memory, cpu in that order) and each name joins the trail at most
once, so the trail stays nodup with at most three entries, creation is
attempted at most trail+1 times, and the post-loop exhaustion branch
(`"Unable to create container after limit fallbacks"`) is unreachable. -/
theorem fallback_bounds (sb : DockerSandbox) (env : RunEnv) (cmd : String)
    (t : Nat) :
    (sb.run env cmd t).exhausted = false ∧
    (sb.run env cmd t).trail.Nodup ∧
    (sb.run env cmd t).trail.length ≤ 3 ∧
    (∀ n ∈ (sb.run env cmd t).trail, n = "pids" ∨ n = "memory" ∨ n = "cpu") ∧
    (sb.run env cmd t).creates.length ≤ (sb.run env cmd t).trail.length + 1 ∧
    (∀ exp l fb, (applyFallback exp l fb).2.2 = true →
      numOff (applyFallback exp l fb).1 = numOff l + 1 ∧
      ∃ n, (applyFallback exp l fb).2.1 = fb ++ [n] ∧
        (n = "pids" ∨ n = "memory" ∨ n = "cpu")) ∧
    (∀ exp l fb, pidsGapB (pyLower exp) = true → l.pids = true →
      applyFallback exp l fb = ({ l with pids := false }, fb ++ ["pids"], true)) := by
  have hcons0 : fbConsistent ⟨true, true, true⟩ [] := by
    refine ⟨List.nodup_nil, by simp, by simp, by simp, by simp, by simp [numOff]⟩
  have hchg : ∀ exp l fb, (applyFallback exp l fb).2.2 = true →
      numOff (applyFallback exp l fb).1 = numOff l + 1 ∧
      ∃ n, (applyFallback exp l fb).2.1 = fb ++ [n] ∧
        (n = "pids" ∨ n = "memory" ∨ n = "cpu") :=
    fun exp l fb h => applyFallback_changed exp l fb h
  have hord : ∀ exp l fb, pidsGapB (pyLower exp) = true → l.pids = true →
      applyFallback exp l fb = ({ l with pids := false }, fb ++ ["pids"], true) := by
    intro exp l fb h1 h2
    simp [applyFallback, h1, h2]
  rcases hP : checkPolicy env.reSearch sb.policy cmd with _ | v
  · have hinv := runLoop_trail_inv (env.host cmd) env.ts 4 0 ⟨true, true, true⟩ []
      { id := env.runId, cmd := cmd, timeout := t, image := sb.image,
        mount_dest := sb.mount_dest, limits_fallback := none } [] hcons0
    have hct := runLoop_creates_trail (env.host cmd) env.ts 4 0 ⟨true, true, true⟩ []
      { id := env.runId, cmd := cmd, timeout := t, image := sb.image,
        mount_dest := sb.mount_dest, limits_fallback := none } []
    have hnex := runLoop_no_exhaust (env.host cmd) env.ts 4 0 ⟨true, true, true⟩ []
      { id := env.runId, cmd := cmd, timeout := t, image := sb.image,
        mount_dest := sb.mount_dest, limits_fallback := none } []
      (by simp [numOff])
    rcases hL : runLoop (env.host cmd) env.ts 4 0 ⟨true, true, true⟩ []
        { id := env.runId, cmd := cmd, timeout := t, image := sb.image,
          mount_dest := sb.mount_dest, limits_fallback := none } [] with
      ⟨r, audits, creates, trail⟩ | ⟨ev', creates, trail⟩ |
      ⟨exn, ev', creates, trail⟩
    · rw [hL] at hinv hct
      simp only [LoopOut.trailOf, LoopOut.createsOf] at hinv hct
      obtain ⟨l'', hnd, hnames, _, _, _, hlen⟩ := hinv
      refine ⟨by simp [DockerSandbox.run, hP, hL], ?_, ?_, ?_, ?_, hchg, hord⟩
      · simpa [DockerSandbox.run, hP, hL] using hnd
      · have h3 := numOff_le_three l''
        simp only [DockerSandbox.run, hP, hL]
        omega
      · simpa [DockerSandbox.run, hP, hL] using hnames
      · simp only [DockerSandbox.run, hP, hL]
        simp at hct
        omega
    · rw [hL] at hnex
      simp [LoopOut.isExhaust] at hnex
    · rw [hL] at hinv hct
      simp only [LoopOut.trailOf, LoopOut.createsOf] at hinv hct
      obtain ⟨l'', hnd, hnames, _, _, _, hlen⟩ := hinv
      refine ⟨by simp [DockerSandbox.run, hP, hL], ?_, ?_, ?_, ?_, hchg, hord⟩
      · simpa [DockerSandbox.run, hP, hL] using hnd
      · have h3 := numOff_le_three l''
        simp only [DockerSandbox.run, hP, hL]
        omega
      · simpa [DockerSandbox.run, hP, hL] using hnames
      · simp only [DockerSandbox.run, hP, hL]
        simp at hct
        omega
  · refine ⟨by simp [DockerSandbox.run, hP], by simp [DockerSandbox.run, hP],
      by simp [DockerSandbox.run, hP], by simp [DockerSandbox.run, hP],
      by simp [DockerSandbox.run, hP], hchg, hord⟩

/-- Witness for C9 on a pids-deficient host, plus the classifier facts
at a concrete error text that names both the pids and memory
controllers (pids wins, per the fixed order). -/
theorem fallback_bounds_witness :
    (sbBasic.run (envWith hostNoPids) "python x.py" 10).exhausted = false ∧
    (sbBasic.run (envWith hostNoPids) "python x.py" 10).trail.Nodup ∧
    (sbBasic.run (envWith hostNoPids) "python x.py" 10).trail.length ≤ 3 ∧
    numOff (applyFallback "pids.max missing" ⟨true, true, true⟩ []).1 =
      numOff ⟨true, true, true⟩ + 1 ∧
    applyFallback "pids.max and memory.max both missing" ⟨true, true, true⟩ [] =
      (⟨true, true, false⟩, [] ++ ["pids"], true) := by
  refine ⟨(fallback_bounds sbBasic (envWith hostNoPids) "python x.py" 10).1,
    (fallback_bounds sbBasic (envWith hostNoPids) "python x.py" 10).2.1,
    (fallback_bounds sbBasic (envWith hostNoPids) "python x.py" 10).2.2.1,
    ((fallback_bounds sbBasic (envWith hostNoPids) "python x.py" 10).2.2.2.2.2.1
      "pids.max missing" ⟨true, true, true⟩ [] rfl).1,
    (fallback_bounds sbBasic (envWith hostNoPids) "python x.py" 10).2.2.2.2.2.2
      "pids.max and memory.max both missing" ⟨true, true, true⟩ [] rfl rfl⟩

/-- C8 (amended): the mount target is `/app` when the
whitespace-stripped `working_subdir` is empty, `"."` or `"./"`, and
otherwise `/app/` plus that stripped value with leading and trailing
slashes removed; the same resolved path is the bind destination and the
container working directory, and the workspace is the bound host path. -/
theorem mount_dest_resolution (sb : DockerSandbox) (cmd : String) (l : Limits) :
    sb.mount_dest = specMountDest sb.policy ∧
    (sb.create_kwargs cmd l).working_dir = sb.mount_dest ∧
    (sb.create_kwargs cmd l).volumes.bind = sb.mount_dest ∧
    (sb.create_kwargs cmd l).volumes.hostPath = sb.workspace :=
  ⟨rfl, rfl, rfl, rfl⟩

/-- Counterexample to C8 as stated: for `working_subdir = " sub"` the
code strips whitespace before joining, producing `/app/sub`, while the
claim's words (only slashes removed) would produce `/app/ sub`. -/
theorem mount_dest_counterexample :
    sbSubWs.mount_dest = "/app/sub" ∧
    claimMountDest sbSubWs.policy = "/app/ sub" ∧
    sbSubWs.mount_dest ≠ claimMountDest sbSubWs.policy :=
  ⟨rfl, rfl, by decide⟩
